import Mathlib

/-!
Verification development for the mp3-player repository.

Shallow embedding of the playback engine (`src/scripts/main.js`, class
`Player`) and of the visualizer (`src/scripts/visualizer.js`, class
`AudioVisualizer`).  Pure functions are translated directly; the mutable
`Player` object becomes an explicit `State` record threaded through the
operations; operations that can raise a JavaScript exception return
`Except String State`.
-/

namespace MP3Player

/-- A track descriptor from the manifest (`data/tracks.json`): the fields the
engine reads.  `image` and `audio` are `none` when the JSON field is absent
or null. -/
structure Track where
  title : String
  artist : String
  image : Option String
  audio : Option String
deriving Repr, DecidableEq

/-- A JavaScript array-index value as produced by the engine's index
arithmetic: either an integer or `NaN` (JS produces `NaN` for `x % 0`). -/
inductive JIdx where
  | num (n : ℤ)
  | nan
deriving Repr, DecidableEq

/-- The mutable state of the `Player` object (plus the DOM slots it writes):
`tracks`, `currentTrackIndex`, `isPlaying`, the active `audio` element's
`src`/`currentTime`/`duration` (duration `none` while unknown, i.e. `NaN`),
the audio preload cache (as its key list in Map insertion order), and the
track-info UI slots. -/
structure State where
  tracks : List Track
  currentIndex : ℕ
  isPlaying : Bool
  audioSrc : String
  position : ℚ
  duration : Option ℚ
  preloadCache : List String
  uiTitle : String
  uiArtist : String
  uiArt : String
deriving Repr, DecidableEq

/-- `index < 0` on a JS index value: false for `NaN`. -/
def jIdxLtZero : JIdx → Bool
  | .num n => decide (n < 0)
  | .nan => false

/-- `index >= this.tracks.length` on a JS index value: false for `NaN`. -/
def jIdxGeLen (i : JIdx) (len : ℕ) : Bool :=
  match i with
  | .num n => decide ((len : ℤ) ≤ n)
  | .nan => false

/-- `this.tracks[index]`: `undefined` (= `none`) for `NaN` or an
out-of-range integer. -/
def trackAt (ts : List Track) : JIdx → Option Track
  | .num n => if n < 0 then none else ts[n.toNat]?
  | .nan => none

/-- The numeric value written into `currentTrackIndex` by `loadTrack`
(only ever read back on the in-range path). -/
def jIdxToNat : JIdx → ℕ
  | .num n => n.toNat
  | .nan => 0

/-- JS truthiness of `track.audio` / `track.image`: absent or empty string
is falsy. -/
def truthyStr : Option String → Option String
  | some s => if s = "" then none else some s
  | none => none

/-- `pause()`: stops output and clears the playing flag
(`main.js` lines 325-330). -/
def pauseRun (st : State) : State :=
  { st with isPlaying := false }

/-- `play()` as a state transformer: no-op without a bound audio source,
otherwise marks the engine playing (`main.js` lines 309-323).  The
suspended-context resume that `play()` also initiates is modeled separately
as an event trace (`playSyncEvents` / `playDeferredEvents`) because it is a
scheduling fact, not a state fact. -/
def playRun (st : State) : State :=
  if st.audioSrc ≠ "" then { st with isPlaying := true } else st

/-- `togglePlayPause()` (`main.js` lines 332-338). -/
def togglePlayPauseRun (st : State) : State :=
  if st.isPlaying then pauseRun st else playRun st

/-- The cache update performed by `preloadTrack` (`main.js` lines 220-238):
skip keys already present; otherwise `Map.set` appends the key in insertion
order, and if the size then exceeds 3 the first-inserted key
(`keys().next().value`) is deleted. -/
def preloadCacheInsert (cache : List String) (url : String) : List String :=
  if cache.contains url then cache
  else
    let cache' := cache ++ [url]
    if 3 < cache'.length then cache'.drop 1 else cache'

/-- `preloadTrack(index)` (`main.js` lines 213-244): bounds-guarded, skips
tracks without an audio reference, then inserts into the preload cache. -/
def preloadTrackRun (st : State) (index : ℕ) : State :=
  match st.tracks[index]? with
  | none => st
  | some track =>
    match truthyStr track.audio with
    | none => st
    | some url => { st with preloadCache := preloadCacheInsert st.preloadCache url }

/-- `preloadAdjacentTracks()` (`main.js` lines 203-211): preload the wrapped
next index, then the wrapped previous index.  Both call sites (`init` and the
in-range path of `loadTrack`) guarantee a non-empty track list, so the
zero-length branch is unreachable and modeled as the identity. -/
def preloadAdjacentRun (st : State) : State :=
  if st.tracks.length = 0 then st
  else
    let st1 := preloadTrackRun st ((st.currentIndex + 1) % st.tracks.length)
    preloadTrackRun st1 ((st1.currentIndex + st1.tracks.length - 1) % st1.tracks.length)

/-- The placeholder cover used when a track has no image
(`main.js` line 248). -/
def placeholderArt : String :=
  "https://placehold.co/1024x1024/000000/FFF?text=No+Cover+Image"

/-- `loadTrack(index, autoplay)` (`main.js` lines 156-201).  The guard
`index < 0 || index >= this.tracks.length` returns early; past it the code
assigns `currentTrackIndex` and reads `this.tracks[index].title`, which
throws a `TypeError` when the lookup is `undefined` (reachable with
`index = NaN`).  On the valid path: pause, rebind art/title/artist, bind the
audio source (the preload-cache hit reuses the preloaded element's `src`,
which is this same URL) and reset the element (`load()` clears position and
duration), autoplay if requested, and preload the adjacent tracks. -/
def loadTrackRun (st : State) (index : JIdx) (autoplay : Bool) : Except String State :=
  if jIdxLtZero index || jIdxGeLen index st.tracks.length then .ok st
  else
    match trackAt st.tracks index with
    | none => .error "TypeError: cannot read title of undefined"
    | some track =>
      let st := { st with currentIndex := jIdxToNat index }
      let st := pauseRun st
      let st := { st with
        uiArt := track.image.getD placeholderArt,
        uiTitle := track.title,
        uiArtist := track.artist }
      let st :=
        match truthyStr track.audio with
        | some url =>
          let st := { st with audioSrc := url, position := 0, duration := none }
          if autoplay then playRun st else st
        | none => { st with audioSrc := "", position := 0, duration := none }
      .ok (preloadAdjacentRun st)

/-- The index computed by `nextTrack()`:
`(this.currentTrackIndex + 1) % this.tracks.length`, which is `NaN` when the
track list is empty (JS `x % 0`). -/
def nextIdx (st : State) : JIdx :=
  if st.tracks.length = 0 then .nan
  else .num (((st.currentIndex : ℤ) + 1) % (st.tracks.length : ℤ))

/-- The index computed by `previousTrack()`:
`(this.currentTrackIndex - 1 + this.tracks.length) % this.tracks.length`. -/
def prevIdx (st : State) : JIdx :=
  if st.tracks.length = 0 then .nan
  else .num (((st.currentIndex : ℤ) - 1 + st.tracks.length) % (st.tracks.length : ℤ))

/-- `nextTrack()` (`main.js` lines 340-343): one `loadTrack` at the wrapped
next index with `autoplay = this.isPlaying`. -/
def nextTrackRun (st : State) : Except String State :=
  loadTrackRun st (nextIdx st) st.isPlaying

/-- `previousTrack()` (`main.js` lines 345-348). -/
def previousTrackRun (st : State) : Except String State :=
  loadTrackRun st (prevIdx st) st.isPlaying

/-- The body of the `ended` listener (`main.js` lines 137-139): a single
`this.nextTrack()` call. -/
def onEndedRun (st : State) : Except String State :=
  nextTrackRun st

/-- `seek(percent)` (`main.js` lines 350-354): guarded by the truthiness of
`this.audio.duration` (falsy while unknown, i.e. `NaN`, and for a zero
duration), sets `currentTime` to `(percent / 100) * duration`. -/
def seekRun (st : State) (percent : ℚ) : State :=
  match st.duration with
  | some d => if d ≠ 0 then { st with position := percent / 100 * d } else st
  | none => st

/-- k-fold composition of a fallible engine operation (each step runs only if
the previous one returned normally). -/
def iterateE (f : State → Except String State) : ℕ → State → Except String State
  | 0, st => .ok st
  | k + 1, st =>
    match f st with
    | .ok st' => iterateE f k st'
    | .error e => .error e

/-- The Empty state left by a manifest load failure: `loadTracks` catches the
fetch error and leaves `this.tracks = []` with the constructor's initial
field values (`main.js` lines 2-12 and 45-54). -/
def emptyState : State :=
  { tracks := []
    currentIndex := 0
    isPlaying := false
    audioSrc := ""
    position := 0
    duration := none
    preloadCache := []
    uiTitle := ""
    uiArtist := ""
    uiArt := "" }

/-- Events of the synchronous body of `play()` and of its deferred resume
continuation. -/
inductive PlayEv where
  | resumeStart
  | audioPlay
  | markPlaying
  | updateButton
  | updateRotation
  | resumeComplete
deriving Repr, DecidableEq

/-- The synchronous body of `play()` (`main.js` lines 309-323): with a bound
source it initiates the audio-context resume when the context is suspended
(`resume().then(...)` — initiation only, the promise is not awaited), then
calls `audio.play()`, sets `isPlaying = true` and updates the play button
and record rotation. -/
def playSyncEvents (hasSrc suspended : Bool) : List PlayEv :=
  if hasSrc then
    (if suspended then [.resumeStart] else []) ++
      [.audioPlay, .markPlaying, .updateButton, .updateRotation]
  else []

/-- The deferred continuation of the resume promise: under JS
run-to-completion semantics the `.then` callback (resume completion) runs
only after the synchronous `play()` body has finished. -/
def playDeferredEvents (hasSrc suspended : Bool) : List PlayEv :=
  if hasSrc && suspended then [.resumeComplete] else []

/-- The observable event order of one `play()` call. -/
def playTrace (hasSrc suspended : Bool) : List PlayEv :=
  playSyncEvents hasSrc suspended ++ playDeferredEvents hasSrc suspended

/-! ### Helper lemmas -/

theorem truthyStr_ne_empty {o : Option String} {url : String}
    (h : truthyStr o = some url) : url ≠ "" := by
  rcases o with _ | s
  · simp [truthyStr] at h
  · by_cases hs : s = ""
    · simp [truthyStr, hs] at h
    · simp only [truthyStr, if_neg hs] at h
      cases h
      exact hs

theorem preloadTrackRun_fields (st : State) (i : ℕ) :
    (preloadTrackRun st i).currentIndex = st.currentIndex ∧
    (preloadTrackRun st i).tracks = st.tracks ∧
    (preloadTrackRun st i).isPlaying = st.isPlaying := by
  unfold preloadTrackRun
  split
  · exact ⟨rfl, rfl, rfl⟩
  · split
    · exact ⟨rfl, rfl, rfl⟩
    · exact ⟨rfl, rfl, rfl⟩

theorem preloadAdjacentRun_fields (st : State) :
    (preloadAdjacentRun st).currentIndex = st.currentIndex ∧
    (preloadAdjacentRun st).tracks = st.tracks ∧
    (preloadAdjacentRun st).isPlaying = st.isPlaying := by
  unfold preloadAdjacentRun
  split
  · exact ⟨rfl, rfl, rfl⟩
  · refine ⟨?_, ?_, ?_⟩
    · rw [(preloadTrackRun_fields _ _).1, (preloadTrackRun_fields _ _).1]
    · rw [(preloadTrackRun_fields _ _).2.1, (preloadTrackRun_fields _ _).2.1]
    · rw [(preloadTrackRun_fields _ _).2.2, (preloadTrackRun_fields _ _).2.2]

theorem loadTrack_valid (st : State) (k : ℤ) (auto : Bool) (track : Track)
    (h0 : 0 ≤ k) (h1 : k < (st.tracks.length : ℤ))
    (htr : st.tracks[k.toNat]? = some track) :
    ∃ st', loadTrackRun st (.num k) auto = .ok st' ∧
      st'.currentIndex = k.toNat ∧ st'.tracks = st.tracks ∧
      st'.isPlaying = (auto && (truthyStr track.audio).isSome) := by
  have hguard1 : jIdxLtZero (.num k) = false := by
    simp only [jIdxLtZero, decide_eq_false_iff_not, not_lt]
    exact h0
  have hguard2 : jIdxGeLen (.num k) st.tracks.length = false := by
    simp only [jIdxGeLen, decide_eq_false_iff_not, not_le]
    exact h1
  have hlook : trackAt st.tracks (.num k) = some track := by
    simp only [trackAt, if_neg (not_lt.mpr h0)]
    exact htr
  unfold loadTrackRun
  rw [hguard1, hguard2, hlook]
  simp only [Bool.or_self, Bool.false_eq_true, if_false]
  rcases hta : truthyStr track.audio with _ | url
  · refine ⟨_, rfl, ?_, ?_, ?_⟩
    · rw [(preloadAdjacentRun_fields _).1]
      simp [pauseRun, jIdxToNat]
    · rw [(preloadAdjacentRun_fields _).2.1]
      simp [pauseRun]
    · rw [(preloadAdjacentRun_fields _).2.2]
      simp [pauseRun]
  · have hurl : url ≠ "" := truthyStr_ne_empty hta
    cases auto
    · refine ⟨_, rfl, ?_, ?_, ?_⟩
      · rw [(preloadAdjacentRun_fields _).1]
        simp [pauseRun, jIdxToNat]
      · rw [(preloadAdjacentRun_fields _).2.1]
        simp [pauseRun]
      · rw [(preloadAdjacentRun_fields _).2.2]
        simp [pauseRun]
    · refine ⟨_, rfl, ?_, ?_, ?_⟩
      · rw [(preloadAdjacentRun_fields _).1]
        simp [playRun, pauseRun, hurl, jIdxToNat]
      · rw [(preloadAdjacentRun_fields _).2.1]
        simp [playRun, pauseRun, hurl]
      · rw [(preloadAdjacentRun_fields _).2.2]
        simp [playRun, pauseRun, hurl]

theorem nextIdx_eq (st : State) (h : st.tracks.length ≠ 0) :
    nextIdx st = .num (((st.currentIndex + 1) % st.tracks.length : ℕ) : ℤ) := by
  unfold nextIdx
  rw [if_neg h]
  congr 1

theorem prevIdx_eq (st : State) (h : st.tracks.length ≠ 0) :
    prevIdx st =
      .num (((st.currentIndex + st.tracks.length - 1) % st.tracks.length : ℕ) : ℤ) := by
  unfold prevIdx
  rw [if_neg h]
  congr 1
  rw [Int.natCast_mod]
  congr 1
  rw [Nat.cast_sub (by omega : 1 ≤ st.currentIndex + st.tracks.length), Nat.cast_add]
  ring

theorem nextTrackRun_step (st : State) (h : st.tracks.length ≠ 0) :
    ∃ st' track, nextTrackRun st = .ok st' ∧ st'.tracks = st.tracks ∧
      st'.currentIndex = (st.currentIndex + 1) % st.tracks.length ∧
      st.tracks[(st.currentIndex + 1) % st.tracks.length]? = some track ∧
      st'.isPlaying = (st.isPlaying && (truthyStr track.audio).isSome) := by
  have hlt : (st.currentIndex + 1) % st.tracks.length < st.tracks.length :=
    Nat.mod_lt _ (Nat.pos_of_ne_zero h)
  obtain ⟨track, htrack⟩ :
      ∃ track, st.tracks[(st.currentIndex + 1) % st.tracks.length]? = some track :=
    ⟨_, List.getElem?_eq_getElem hlt⟩
  unfold nextTrackRun
  rw [nextIdx_eq st h]
  obtain ⟨st', h1, h2, h3, h4⟩ := loadTrack_valid st
    (((st.currentIndex + 1) % st.tracks.length : ℕ) : ℤ) st.isPlaying track
    (Int.natCast_nonneg _) (by exact_mod_cast hlt) (by simpa using htrack)
  exact ⟨st', track, h1, h3, by rw [h2, Int.toNat_natCast], htrack, h4⟩

theorem previousTrackRun_step (st : State) (h : st.tracks.length ≠ 0) :
    ∃ st', previousTrackRun st = .ok st' ∧ st'.tracks = st.tracks ∧
      st'.currentIndex = (st.currentIndex + st.tracks.length - 1) % st.tracks.length := by
  have hlt : (st.currentIndex + st.tracks.length - 1) % st.tracks.length < st.tracks.length :=
    Nat.mod_lt _ (Nat.pos_of_ne_zero h)
  obtain ⟨track, htrack⟩ :
      ∃ track,
        st.tracks[(st.currentIndex + st.tracks.length - 1) % st.tracks.length]? = some track :=
    ⟨_, List.getElem?_eq_getElem hlt⟩
  unfold previousTrackRun
  rw [prevIdx_eq st h]
  obtain ⟨st', h1, h2, h3, _⟩ := loadTrack_valid st
    (((st.currentIndex + st.tracks.length - 1) % st.tracks.length : ℕ) : ℤ) st.isPlaying track
    (Int.natCast_nonneg _) (by exact_mod_cast hlt) (by simpa using htrack)
  exact ⟨st', h1, h3, by rw [h2, Int.toNat_natCast]⟩

theorem nextTrackRun_iter (st : State) (h : st.tracks.length ≠ 0)
    (hc : st.currentIndex < st.tracks.length) (k : ℕ) :
    ∃ st', iterateE nextTrackRun k st = .ok st' ∧ st'.tracks = st.tracks ∧
      st'.currentIndex = (st.currentIndex + k) % st.tracks.length := by
  induction k generalizing st with
  | zero => exact ⟨st, rfl, rfl, by simpa using (Nat.mod_eq_of_lt hc).symm⟩
  | succ n ih =>
    obtain ⟨st1, _, h1, htr, hidx, _, _⟩ := nextTrackRun_step st h
    have hlen1 : st1.tracks.length ≠ 0 := by rw [htr]; exact h
    have hc1 : st1.currentIndex < st1.tracks.length := by
      rw [htr, hidx]
      exact Nat.mod_lt _ (Nat.pos_of_ne_zero h)
    obtain ⟨st2, h2, htr2, hidx2⟩ := ih st1 hlen1 hc1
    refine ⟨st2, ?_, by rw [htr2, htr], ?_⟩
    · simpa [iterateE, h1] using h2
    · rw [hidx2, hidx, htr, Nat.mod_add_mod]
      congr 1
      omega

theorem previousTrackRun_iter (st : State) (m : ℕ) (hlen : st.tracks.length = m + 1)
    (hc : st.currentIndex < st.tracks.length) (k : ℕ) :
    ∃ st', iterateE previousTrackRun k st = .ok st' ∧ st'.tracks = st.tracks ∧
      st'.currentIndex = (st.currentIndex + k * m) % (m + 1) := by
  induction k generalizing st with
  | zero =>
    refine ⟨st, rfl, rfl, ?_⟩
    rw [hlen] at hc
    simpa using (Nat.mod_eq_of_lt hc).symm
  | succ n ih =>
    have h : st.tracks.length ≠ 0 := by omega
    obtain ⟨st1, h1, htr, hidx⟩ := previousTrackRun_step st h
    have hlen1 : st1.tracks.length = m + 1 := by rw [htr]; exact hlen
    have hc1 : st1.currentIndex < st1.tracks.length := by
      rw [htr, hidx]
      exact Nat.mod_lt _ (Nat.pos_of_ne_zero h)
    obtain ⟨st2, h2, htr2, hidx2⟩ := ih st1 hlen1 hc1
    refine ⟨st2, ?_, by rw [htr2, htr], ?_⟩
    · simpa [iterateE, h1] using h2
    · rw [hidx2, hidx, hlen, Nat.mod_add_mod]
      congr 1
      rw [Nat.succ_mul]
      omega

theorem preloadCacheInsert_length_le (c : List String) (k : String)
    (h : c.length ≤ 3) : (preloadCacheInsert c k).length ≤ 3 := by
  unfold preloadCacheInsert
  split
  · exact h
  · dsimp only
    split
    · simpa using h
    · next h2 =>
      simp only [List.length_append, List.length_cons, List.length_nil, not_lt] at h2 ⊢
      omega

theorem preloadTrackRun_cache_le (st : State) (i : ℕ)
    (h : st.preloadCache.length ≤ 3) : ((preloadTrackRun st i).preloadCache).length ≤ 3 := by
  unfold preloadTrackRun
  split
  · exact h
  · split
    · exact h
    · exact preloadCacheInsert_length_le _ _ h

/-! ### Concrete states used by the witnesses -/

def trackA : Track := { title := "A", artist := "X", image := none, audio := some "a.mp3" }

def trackB : Track := { title := "B", artist := "Y", image := none, audio := some "b.mp3" }

def twoTrackState : State := { emptyState with tracks := [trackA, trackB] }

def lastIndexPlayingState : State :=
  { twoTrackState with currentIndex := 1, isPlaying := true }

def loadedDurationState : State := { twoTrackState with duration := some 200 }

/-! ### Claims -/

/-- C1: the claim says every transport operation completes without throwing in
every reachable state, including the Empty state (zero tracks) left by a
manifest load failure.  The code violates this: with zero tracks,
`nextTrack()` computes `(0 + 1) % 0 = NaN` and `loadTrack(NaN)` passes the
bounds guard (both `NaN < 0` and `NaN >= 0` are false), so
`this.tracks[NaN].title` throws a `TypeError`; likewise `previousTrack()`.
The other transport operations do contain failure locally (shown here for
`loadTrack 0`, `play`, `pause`, `togglePlayPause` and `seek` on the Empty
state). -/
theorem c1_empty_state_next_previous_throw :
    nextTrackRun emptyState = .error "TypeError: cannot read title of undefined" ∧
    previousTrackRun emptyState = .error "TypeError: cannot read title of undefined" ∧
    loadTrackRun emptyState (.num 0) false = .ok emptyState ∧
    playRun emptyState = emptyState ∧
    pauseRun emptyState = emptyState ∧
    togglePlayPauseRun emptyState = emptyState ∧
    seekRun emptyState 50 = emptyState := by
  refine ⟨rfl, rfl, rfl, rfl, rfl, rfl, rfl⟩

/-- C2 (counterexample): the claim says the suspended-to-running resume is
awaited to completion before the engine marks `isPlaying` true.  In the trace
of `play()` invoked with a bound source while the context is suspended, the
resume completion does not precede the `isPlaying := true` mark — the mark
happens synchronously and the resume completion callback runs after the whole
synchronous body. -/
theorem c2_resume_awaited_counterexample :
    playTrace true true =
      [.resumeStart, .audioPlay, .markPlaying, .updateButton, .updateRotation,
        .resumeComplete] ∧
    ¬ List.indexOf PlayEv.resumeComplete (playTrace true true) <
        List.indexOf PlayEv.markPlaying (playTrace true true) := by
  decide

/-- C2 (amended): if `play()` is invoked with a bound source, the engine marks
`isPlaying` true synchronously — strictly before the resume-completion
callback can run (the resume, initiated only in the suspended case, is
fire-and-forget, never awaited); the completion never occurs inside the
synchronous body. -/
theorem c2_resume_not_awaited : ∀ suspended : Bool,
    PlayEv.markPlaying ∈ playSyncEvents true suspended ∧
    PlayEv.resumeComplete ∉ playSyncEvents true suspended ∧
    List.indexOf PlayEv.markPlaying (playTrace true suspended) <
      List.indexOf PlayEv.resumeComplete (playTrace true suspended) := by
  intro suspended
  cases suspended <;> decide

/-- C3: after any sequence of `preloadTrack` insertions starting from a cache
within capacity, the audio preload cache holds at most 3 entries; inserting a
new key into a full cache evicts exactly the oldest-inserted key (FIFO); and
inserting u1, u2, u3, u4 in order into an empty cache leaves [u2, u3, u4]. -/
theorem c3_preload_cache_fifo :
    (∀ (st : State) (ops : List ℕ), st.preloadCache.length ≤ 3 →
        ((ops.foldl preloadTrackRun st).preloadCache).length ≤ 3) ∧
    (∀ (c : List String) (k : String), c.length = 3 → c.contains k = false →
        preloadCacheInsert c k = c.drop 1 ++ [k]) ∧
    ["u1", "u2", "u3", "u4"].foldl preloadCacheInsert [] = ["u2", "u3", "u4"] := by
  refine ⟨?_, ?_, by decide⟩
  · intro st ops h
    induction ops generalizing st with
    | nil => exact h
    | cons i rest ih =>
      simp only [List.foldl_cons]
      exact ih _ (preloadTrackRun_cache_le st i h)
  · intro c k h3 hk
    unfold preloadCacheInsert
    rw [if_neg (by rw [hk]; exact Bool.false_ne_true)]
    dsimp only
    rw [if_pos (by simp [h3])]
    exact List.drop_append_of_le_length (by omega)

theorem c3_preload_cache_fifo_witness :
    ((([5, 0, 1] : List ℕ).foldl preloadTrackRun twoTrackState).preloadCache).length ≤ 3 ∧
    preloadCacheInsert ["u1", "u2", "u3"] "u4" = ["u1", "u2", "u3"].drop 1 ++ ["u4"] :=
  ⟨c3_preload_cache_fifo.1 twoTrackState [5, 0, 1] (by decide),
    c3_preload_cache_fifo.2.1 ["u1", "u2", "u3"] "u4" (by decide) (by decide)⟩

/-- C4: for every track list with N ≥ 1 tracks and every starting index in
[0, N), composing `nextTrack` N times returns the current index to its
starting value, and likewise composing `previousTrack` N times. -/
theorem c4_next_previous_cycle (st : State) (n : ℕ)
    (hn : st.tracks.length = n) (h1 : 1 ≤ n) (hc : st.currentIndex < n) :
    (∃ st', iterateE nextTrackRun n st = .ok st' ∧
        st'.currentIndex = st.currentIndex) ∧
    (∃ st', iterateE previousTrackRun n st = .ok st' ∧
        st'.currentIndex = st.currentIndex) := by
  constructor
  · obtain ⟨st', hrun, -, hidx⟩ :=
      nextTrackRun_iter st (by omega) (by omega) n
    refine ⟨st', hrun, ?_⟩
    rw [hidx, hn, Nat.add_mod_right, Nat.mod_eq_of_lt hc]
  · obtain ⟨st', hrun, -, hidx⟩ :=
      previousTrackRun_iter st (n - 1) (by omega) (by omega) n
    refine ⟨st', hrun, ?_⟩
    rw [hidx, show (n - 1) + 1 = n by omega, Nat.add_mul_mod_self_left,
      Nat.mod_eq_of_lt hc]

theorem c4_next_previous_cycle_witness :
    (∃ st', iterateE nextTrackRun 2 twoTrackState = .ok st' ∧
        st'.currentIndex = twoTrackState.currentIndex) ∧
    (∃ st', iterateE previousTrackRun 2 twoTrackState = .ok st' ∧
        st'.currentIndex = twoTrackState.currentIndex) :=
  c4_next_previous_cycle twoTrackState 2 rfl (by decide) (by decide)

/-- C5: the `ended` handler performs exactly one `nextTrack()`, which is
exactly one `loadTrack` at the wrapped next index with the autoplay hint equal
to the engine's current `isPlaying`; from the last index the current index
wraps to 0; and when the new track has an audio reference, playback of the
new track is active after the transition if and only if the engine was
playing at the moment of the signal. -/
theorem c5_auto_advance (st : State) (n : ℕ)
    (hn : st.tracks.length = n) (h1 : 1 ≤ n) (hc : st.currentIndex < n) :
    onEndedRun st = loadTrackRun st (nextIdx st) st.isPlaying ∧
    ∃ st', onEndedRun st = .ok st' ∧
      st'.currentIndex = (st.currentIndex + 1) % n ∧
      (st.currentIndex = n - 1 → st'.currentIndex = 0) ∧
      ∀ track, st.tracks[(st.currentIndex + 1) % n]? = some track →
        st'.isPlaying = (st.isPlaying && (truthyStr track.audio).isSome) := by
  refine ⟨rfl, ?_⟩
  obtain ⟨st', track, hrun, htracks, hidx, hlook, hplay⟩ :=
    nextTrackRun_step st (by omega)
  subst hn
  refine ⟨st', hrun, hidx, ?_, ?_⟩
  · intro hlast
    rw [hidx, hlast, show st.tracks.length - 1 + 1 = st.tracks.length by omega,
      Nat.mod_self]
  · intro track' hlook'
    rw [hlook'] at hlook
    cases hlook
    exact hplay

theorem c5_auto_advance_witness :
    onEndedRun lastIndexPlayingState =
      loadTrackRun lastIndexPlayingState (nextIdx lastIndexPlayingState)
        lastIndexPlayingState.isPlaying ∧
    ∃ st', onEndedRun lastIndexPlayingState = .ok st' ∧
      st'.currentIndex = (lastIndexPlayingState.currentIndex + 1) % 2 ∧
      (lastIndexPlayingState.currentIndex = 2 - 1 → st'.currentIndex = 0) ∧
      ∀ track,
        lastIndexPlayingState.tracks[(lastIndexPlayingState.currentIndex + 1) % 2]? =
          some track →
        st'.isPlaying =
          (lastIndexPlayingState.isPlaying && (truthyStr track.audio).isSome) :=
  c5_auto_advance lastIndexPlayingState 2 rfl (by decide) (by decide)

/-- C6: with a known (loaded, positive) duration d, `seek(percent)` sets the
playback position to percent/100 × d; with an unknown duration (`NaN`,
i.e. not yet loaded), `seek` leaves the whole state unchanged. -/
theorem c6_seek_position :
    (∀ (st : State) (p d : ℚ), st.duration = some d → 0 < d →
        (seekRun st p).position = p / 100 * d) ∧
    (∀ (st : State) (p : ℚ), st.duration = none → seekRun st p = st) := by
  constructor
  · intro st p d hd hpos
    simp [seekRun, hd, hpos.ne']
  · intro st p hd
    simp [seekRun, hd]

theorem c6_seek_position_witness :
    (seekRun loadedDurationState 50).position = 50 / 100 * 200 :=
  c6_seek_position.1 loadedDurationState 50 200 rfl (by norm_num)

/-- C7: `loadTrack` with an out-of-range integer index is a no-op — the
returned state is the input state, so `currentIndex`, `isPlaying`, position,
duration, the audio binding, the UI slots and the preload cache are all
unchanged and no side effect occurs. -/
theorem c7_load_track_out_of_range (st : State) (k : ℤ) (auto : Bool)
    (h : k < 0 ∨ (st.tracks.length : ℤ) ≤ k) :
    loadTrackRun st (.num k) auto = .ok st := by
  unfold loadTrackRun
  rcases h with h | h
  · rw [if_pos]
    simp [jIdxLtZero, h]
  · rw [if_pos]
    simp [jIdxLtZero, jIdxGeLen, h]

theorem c7_load_track_out_of_range_witness :
    loadTrackRun twoTrackState (.num 5) true = .ok twoTrackState ∧
    loadTrackRun twoTrackState (.num (-1)) true = .ok twoTrackState :=
  ⟨c7_load_track_out_of_range twoTrackState 5 true (Or.inr (by decide)),
    c7_load_track_out_of_range twoTrackState (-1) true (Or.inl (by decide))⟩

/-! ### formatTime (`main.js` lines 400-405) -/

/-- The JS remainder `a % b` for `a ≥ 0, b > 0` (where truncation and floor
agree): `a - b * floor(a / b)`. -/
def jsRem (a b : ℚ) : ℚ := a - b * ⌊a / b⌋

/-- `String.prototype.padStart(2, "0")`: prepend zeros until the length
reaches 2. -/
def padStart2 (s : String) : String :=
  if s.length < 2 then String.mk (List.replicate (2 - s.length) '0') ++ s else s

/-- `formatTime(seconds)` (`main.js` lines 400-405): `"0:00"` for a falsy or
`NaN` input (`none` models `NaN`, and `0` is falsy), otherwise
`floor(seconds / 60) + ":" + String(floor(seconds % 60)).padStart(2, "0")`. -/
def formatTime (seconds : Option ℚ) : String :=
  match seconds with
  | none => "0:00"
  | some s =>
    if s = 0 then "0:00"
    else toString ⌊s / 60⌋ ++ ":" ++ padStart2 (toString ⌊jsRem s 60⌋)

/-- Spec-side rendering of the seconds field: the two-digit zero-padded
decimal of a number below 60. -/
def twoDigit (n : ℕ) : String :=
  if n < 10 then "0" ++ toString n else toString n

theorem jsRem_sixty_bounds (s : ℚ) : 0 ≤ jsRem s 60 ∧ jsRem s 60 < 60 := by
  have hfr : jsRem s 60 = 60 * Int.fract (s / 60) := by
    unfold jsRem Int.fract
    ring
  constructor
  · rw [hfr]
    exact mul_nonneg (by norm_num) (Int.fract_nonneg _)
  · rw [hfr]
    calc (60 : ℚ) * Int.fract (s / 60) < 60 * 1 := by
          exact mul_lt_mul_of_pos_left (Int.fract_lt_one _) (by norm_num)
      _ = 60 := by norm_num

theorem int_toString_of_nonneg (i : ℤ) (h : 0 ≤ i) : toString i = toString i.toNat := by
  obtain ⟨n, rfl⟩ := Int.eq_ofNat_of_zero_le h
  rfl

theorem padStart2_eq_twoDigit (n : ℕ) (h : n < 60) :
    padStart2 (toString n) = twoDigit n ∧ (twoDigit n).length = 2 := by
  have key : ∀ m : Fin 60, padStart2 (toString m.val) = twoDigit m.val ∧
      (twoDigit m.val).length = 2 := by decide
  exact key ⟨n, h⟩

/-- C10: for every `seconds > 0`, `formatTime` returns the decimal of
`floor(seconds / 60)`, a colon, and the two-digit zero-padded decimal of
`floor(seconds mod 60)` — the seconds field is below 60 and exactly two
digits — and `formatTime` returns `"0:00"` on `NaN` and on `0`
(125 s renders as `"2:05"`). -/
theorem c10_format_time :
    (∀ s : ℚ, 0 < s →
        ⌊jsRem s 60⌋.toNat < 60 ∧
        formatTime (some s) =
          toString ⌊s / 60⌋ ++ ":" ++ twoDigit ⌊jsRem s 60⌋.toNat ∧
        (twoDigit ⌊jsRem s 60⌋.toNat).length = 2) ∧
    formatTime none = "0:00" ∧
    formatTime (some 0) = "0:00" ∧
    formatTime (some 125) = "2:05" := by
  have h1 : ⌊(125 : ℚ) / 60⌋ = 2 := by norm_num [Int.floor_eq_iff]
  have h125 : formatTime (some 125) = "2:05" := by
    have h2 : jsRem 125 60 = 5 := by rw [jsRem, h1]; norm_num
    have h3 : ⌊(5 : ℚ)⌋ = 5 := by norm_num
    simp only [formatTime]
    rw [if_neg (by norm_num), h2, h3, h1]
    decide
  refine ⟨?_, rfl, by norm_num [formatTime], h125⟩
  intro s hs
  obtain ⟨hge, hlt⟩ := jsRem_sixty_bounds s
  have hfl0 : 0 ≤ ⌊jsRem s 60⌋ := Int.floor_nonneg.mpr hge
  have hfl : ⌊jsRem s 60⌋ < 60 := Int.floor_lt.mpr (by exact_mod_cast hlt)
  obtain ⟨hpad, hlen⟩ := padStart2_eq_twoDigit ⌊jsRem s 60⌋.toNat (by omega)
  refine ⟨by omega, ?_, hlen⟩
  simp only [formatTime]
  rw [if_neg hs.ne', int_toString_of_nonneg _ hfl0, hpad]

theorem c10_format_time_witness :
    ⌊jsRem (125 : ℚ) 60⌋.toNat < 60 ∧
    formatTime (some 125) =
      toString ⌊(125 : ℚ) / 60⌋ ++ ":" ++ twoDigit ⌊jsRem (125 : ℚ) 60⌋.toNat ∧
    (twoDigit ⌊jsRem (125 : ℚ) 60⌋.toNat).length = 2 :=
  c10_format_time.1 125 (by decide)

/-! ### Visualizer sampling (`visualizer.js`) -/

/-- The analysis node transform size set by `connectAudio`
(`visualizer.js` line 70). -/
def analyserFftSize : ℕ := 512

/-- Web Audio: `frequencyBinCount` is half the transform size; `connectAudio`
sizes `dataArray` to it (`visualizer.js` line 77). -/
def frequencyBinCount : ℕ := analyserFftSize / 2

/-- `sampleSize` in `drawPulseLine` (`visualizer.js` line 128). -/
def sampleSize : ℕ := 32

/-- The 32-sample frame built by `drawPulseLine` from the current spectrum
(`visualizer.js` lines 127-135): sample `i` is bin `i * floor(binCount / 32)`,
with `this.dataArray[index] || 0` yielding 0 out of range (and on a zero
magnitude). -/
def waveformFrame (data : List ℕ) : List ℕ :=
  (List.range sampleSize).map fun i => data.getD (i * (data.length / sampleSize)) 0

/-- `maxHistory` (`visualizer.js` line 19). -/
def maxHistory : ℕ := 100

/-- The history update in `drawPulseLine` (`visualizer.js` lines 137-141):
`unshift` the frame to the front, then `pop` the oldest frame if the length
exceeds `maxHistory`. -/
def pushFrame (hist : List (List ℕ)) (frame : List ℕ) : List (List ℕ) :=
  let h := frame :: hist
  if maxHistory < h.length then h.dropLast else h

/-- C8: every frame pushed to the waveform history has exactly 32 samples;
sample `i` is the magnitude of bin `i * floor(binCount / 32)` of the current
spectrum; the frame is pushed to the front of the history, which is then
trimmed to its capacity; and the bin count is 256 for the configured
transform size 512. -/
theorem c8_waveform_frame (data : List ℕ) (hist : List (List ℕ)) :
    (waveformFrame data).length = 32 ∧
    (∀ i : Fin 32,
        (waveformFrame data).getD i.val 0 = data.getD (i.val * (data.length / 32)) 0) ∧
    (pushFrame hist (waveformFrame data)).head? = some (waveformFrame data) ∧
    (hist.length ≤ maxHistory → (pushFrame hist (waveformFrame data)).length ≤ maxHistory) ∧
    frequencyBinCount = 256 := by
  refine ⟨by simp [waveformFrame, sampleSize], ?_, ?_, ?_, rfl⟩
  · intro i
    have hi : i.val < 32 := i.isLt
    simp [waveformFrame, sampleSize, List.getD_eq_getElem?_getD, List.getElem?_range, hi]
  · unfold pushFrame
    dsimp only
    split
    · next hlen =>
      rcases hist with _ | ⟨f, rest⟩
      · simp [maxHistory] at hlen
      · rw [List.dropLast_cons_of_ne_nil (by simp)]
        rfl
    · rfl
  · intro hle
    unfold pushFrame
    dsimp only
    split
    · next hlen => simp_all [maxHistory]
    · next hlen => simp_all [maxHistory]

theorem c8_waveform_frame_witness :
    (pushFrame [] (waveformFrame (List.replicate 256 7))).length ≤ maxHistory :=
  (c8_waveform_frame (List.replicate 256 7) []).2.2.2.1 (by decide)

/-! ### Idle pulse (`visualizer.js` lines 201-226)

`drawIdlePulse` draws one line through `points = 50` positions
`x = i * width/(points-1)`,
`y = height/2 + sin(i*0.1 + time)*10 + sin(i*0.2 - time*1.5)*5`, with
`time = Date.now() * 0.002` (wall clock).  The trigonometric model is over
`ℝ`; the `time` parameter stands for the code's `time` value. -/

/-- The vertical offset from the center line of idle point `i`:
`wave1 + wave2` (`visualizer.js` lines 217-219). -/
noncomputable def idleOffset (time : ℝ) (i : ℕ) : ℝ :=
  Real.sin (i * 0.1 + time) * 10 + Real.sin (i * 0.2 - time * 1.5) * 5

/-- `points` (`visualizer.js` line 210). -/
def idlePoints : ℕ := 50

/-- The polyline drawn by one idle tick (`visualizer.js` lines 210-226). -/
noncomputable def idlePulsePoints (width height time : ℝ) : List (ℝ × ℝ) :=
  (List.range idlePoints).map fun (i : ℕ) =>
    ((i : ℝ) * (width / ((idlePoints : ℝ) - 1)), height / 2 + idleOffset time i)

theorem sin_pair (x d : ℝ) :
    Real.sin (x + d) + Real.sin (x - d) = 2 * Real.sin x * Real.cos d := by
  rw [Real.sin_add, Real.sin_sub]
  ring

theorem cos_sub_one_eq (x : ℝ) : Real.cos x - 1 = -(2 * Real.sin (x / 2) ^ 2) := by
  have h1 : Real.cos (2 * (x / 2)) = 2 * Real.cos (x / 2) ^ 2 - 1 := Real.cos_two_mul (x / 2)
  have h2 : Real.sin (x / 2) ^ 2 + Real.cos (x / 2) ^ 2 = 1 := Real.sin_sq_add_cos_sq (x / 2)
  rw [show 2 * (x / 2) = x by ring] at h1
  linarith

/-- The 2×2 elimination determinant of the idle-pulse system is negative
(hence nonzero): `(cos(1/10) - 1)(cos(2/5) - 1) - (cos(1/5) - 1)²` equals
`16 sin²(1/20) sin²(1/10) (cos²(1/10) - cos²(1/20)) < 0`. -/
theorem idle_delta_neg :
    (Real.cos (1 / 10) - 1) * (Real.cos (2 / 5) - 1) - (Real.cos (1 / 5) - 1) ^ 2 < 0 := by
  have hπ : (3 : ℝ) < Real.pi := Real.pi_gt_three
  have h05 : (0 : ℝ) < Real.sin (1 / 20) :=
    Real.sin_pos_of_pos_of_lt_pi (by norm_num) (by linarith)
  have h1 : (0 : ℝ) < Real.sin (1 / 10) :=
    Real.sin_pos_of_pos_of_lt_pi (by norm_num) (by linarith)
  have hc05 : (0 : ℝ) < Real.cos (1 / 20) :=
    Real.cos_pos_of_mem_Ioo ⟨by linarith, by linarith⟩
  have hc1 : (0 : ℝ) < Real.cos (1 / 10) :=
    Real.cos_pos_of_mem_Ioo ⟨by linarith, by linarith⟩
  have hcc : Real.cos (1 / 10) < Real.cos (1 / 20) :=
    Real.cos_lt_cos_of_nonneg_of_le_pi (by norm_num) (by linarith) (by norm_num)
  have d1 : Real.cos (1 / 10) - 1 = -(2 * Real.sin (1 / 20) ^ 2) := by
    have h := cos_sub_one_eq (1 / 10)
    rw [show (1 / 10 : ℝ) / 2 = 1 / 20 by norm_num] at h
    exact h
  have d2 : Real.cos (1 / 5) - 1 = -(2 * Real.sin (1 / 10) ^ 2) := by
    have h := cos_sub_one_eq (1 / 5)
    rw [show (1 / 5 : ℝ) / 2 = 1 / 10 by norm_num] at h
    exact h
  have d4 : Real.cos (2 / 5) - 1 = -(2 * Real.sin (1 / 5) ^ 2) := by
    have h := cos_sub_one_eq (2 / 5)
    rw [show (2 / 5 : ℝ) / 2 = 1 / 5 by norm_num] at h
    exact h
  have e2 : Real.sin (1 / 5) = 2 * Real.sin (1 / 10) * Real.cos (1 / 10) := by
    have h := Real.sin_two_mul ((1 : ℝ) / 10)
    rw [show (2 : ℝ) * (1 / 10) = 1 / 5 by norm_num] at h
    exact h
  have e1 : Real.sin (1 / 10) = 2 * Real.sin (1 / 20) * Real.cos (1 / 20) := by
    have h := Real.sin_two_mul ((1 : ℝ) / 20)
    rw [show (2 : ℝ) * (1 / 20) = 1 / 10 by norm_num] at h
    exact h
  have hval : (Real.cos (1 / 10) - 1) * (Real.cos (2 / 5) - 1) -
        (Real.cos (1 / 5) - 1) ^ 2 =
      16 * Real.sin (1 / 20) ^ 2 * Real.sin (1 / 10) ^ 2 *
        (Real.cos (1 / 10) ^ 2 - Real.cos (1 / 20) ^ 2) := by
    rw [d1, d2, d4, e2]
    linear_combination
      (-(4 : ℝ) * Real.sin (1 / 10) ^ 2 *
        (Real.sin (1 / 10) + 2 * Real.sin (1 / 20) * Real.cos (1 / 20))) * e1
  rw [hval]
  apply mul_neg_of_pos_of_neg
  · exact mul_pos (mul_pos (by norm_num) (pow_pos h05 2)) (pow_pos h1 2)
  · have hsq : Real.cos (1 / 10) ^ 2 < Real.cos (1 / 20) ^ 2 :=
      pow_lt_pow_left₀ hcc hc1.le two_ne_zero
    linarith

/-- If the first six idle offsets all coincide, the sine component at indices
2 and 3 of the first wave must vanish simultaneously, forcing `1/10` to be an
integer multiple of `π` — impossible. -/
theorem idle_core (t : ℝ)
    (h02 : idleOffset t 0 = idleOffset t 2)
    (h12 : idleOffset t 1 = idleOffset t 2)
    (h32 : idleOffset t 3 = idleOffset t 2)
    (h42 : idleOffset t 4 = idleOffset t 2)
    (h52 : idleOffset t 5 = idleOffset t 2) : False := by
  simp only [idleOffset] at h02 h12 h32 h42 h52
  push_cast at h02 h12 h32 h42 h52
  norm_num at h02 h12 h32 h42 h52
  have P1 : Real.sin (3 / 10 + t) + Real.sin (1 / 10 + t) =
      2 * Real.sin (1 / 5 + t) * Real.cos (1 / 10) := by
    have h := sin_pair (1 / 5 + t) (1 / 10)
    rw [show (1 / 5 + t) + (1 / 10 : ℝ) = 3 / 10 + t by ring,
      show (1 / 5 + t) - (1 / 10 : ℝ) = 1 / 10 + t by ring] at h
    exact h
  have P2 : Real.sin (2 / 5 + t) + Real.sin t =
      2 * Real.sin (1 / 5 + t) * Real.cos (1 / 5) := by
    have h := sin_pair (1 / 5 + t) (1 / 5)
    rw [show (1 / 5 + t) + (1 / 5 : ℝ) = 2 / 5 + t by ring,
      show (1 / 5 + t) - (1 / 5 : ℝ) = t by ring] at h
    exact h
  have P3 : Real.sin (2 / 5 + t) + Real.sin (1 / 5 + t) =
      2 * Real.sin (3 / 10 + t) * Real.cos (1 / 10) := by
    have h := sin_pair (3 / 10 + t) (1 / 10)
    rw [show (3 / 10 + t) + (1 / 10 : ℝ) = 2 / 5 + t by ring,
      show (3 / 10 + t) - (1 / 10 : ℝ) = 1 / 5 + t by ring] at h
    exact h
  have P4 : Real.sin (1 / 2 + t) + Real.sin (1 / 10 + t) =
      2 * Real.sin (3 / 10 + t) * Real.cos (1 / 5) := by
    have h := sin_pair (3 / 10 + t) (1 / 5)
    rw [show (3 / 10 + t) + (1 / 5 : ℝ) = 1 / 2 + t by ring,
      show (3 / 10 + t) - (1 / 5 : ℝ) = 1 / 10 + t by ring] at h
    exact h
  have Q1 : Real.sin (3 / 5 - t * (3 / 2)) + Real.sin (1 / 5 - t * (3 / 2)) =
      2 * Real.sin (2 / 5 - t * (3 / 2)) * Real.cos (1 / 5) := by
    have h := sin_pair (2 / 5 - t * (3 / 2)) (1 / 5)
    rw [show (2 / 5 - t * (3 / 2)) + (1 / 5 : ℝ) = 3 / 5 - t * (3 / 2) by ring,
      show (2 / 5 - t * (3 / 2)) - (1 / 5 : ℝ) = 1 / 5 - t * (3 / 2) by ring] at h
    exact h
  have Q2 : Real.sin (4 / 5 - t * (3 / 2)) - Real.sin (t * (3 / 2)) =
      2 * Real.sin (2 / 5 - t * (3 / 2)) * Real.cos (2 / 5) := by
    have h := sin_pair (2 / 5 - t * (3 / 2)) (2 / 5)
    rw [show (2 / 5 - t * (3 / 2)) + (2 / 5 : ℝ) = 4 / 5 - t * (3 / 2) by ring,
      show (2 / 5 - t * (3 / 2)) - (2 / 5 : ℝ) = -(t * (3 / 2)) by ring,
      Real.sin_neg] at h
    linarith
  have Q3 : Real.sin (4 / 5 - t * (3 / 2)) + Real.sin (2 / 5 - t * (3 / 2)) =
      2 * Real.sin (3 / 5 - t * (3 / 2)) * Real.cos (1 / 5) := by
    have h := sin_pair (3 / 5 - t * (3 / 2)) (1 / 5)
    rw [show (3 / 5 - t * (3 / 2)) + (1 / 5 : ℝ) = 4 / 5 - t * (3 / 2) by ring,
      show (3 / 5 - t * (3 / 2)) - (1 / 5 : ℝ) = 2 / 5 - t * (3 / 2) by ring] at h
    exact h
  have Q4 : Real.sin (1 - t * (3 / 2)) + Real.sin (1 / 5 - t * (3 / 2)) =
      2 * Real.sin (3 / 5 - t * (3 / 2)) * Real.cos (2 / 5) := by
    have h := sin_pair (3 / 5 - t * (3 / 2)) (2 / 5)
    rw [show (3 / 5 - t * (3 / 2)) + (2 / 5 : ℝ) = 1 - t * (3 / 2) by ring,
      show (3 / 5 - t * (3 / 2)) - (2 / 5 : ℝ) = 1 / 5 - t * (3 / 2) by ring] at h
    exact h
  have E1 : 20 * Real.sin (1 / 5 + t) * (Real.cos (1 / 10) - 1) +
      10 * Real.sin (2 / 5 - t * (3 / 2)) * (Real.cos (1 / 5) - 1) = 0 := by
    linear_combination h12 + h32 - 10 * P1 - 5 * Q1
  have E2 : 20 * Real.sin (1 / 5 + t) * (Real.cos (1 / 5) - 1) +
      10 * Real.sin (2 / 5 - t * (3 / 2)) * (Real.cos (2 / 5) - 1) = 0 := by
    linear_combination h02 + h42 - 10 * P2 - 5 * Q2
  have E3 : 20 * Real.sin (3 / 10 + t) * (Real.cos (1 / 10) - 1) +
      10 * Real.sin (3 / 5 - t * (3 / 2)) * (Real.cos (1 / 5) - 1) = 0 := by
    linear_combination h42 - 2 * h32 - 10 * P3 - 5 * Q3
  have E4 : 20 * Real.sin (3 / 10 + t) * (Real.cos (1 / 5) - 1) +
      10 * Real.sin (3 / 5 - t * (3 / 2)) * (Real.cos (2 / 5) - 1) = 0 := by
    linear_combination h12 + h52 - 2 * h32 - 10 * P4 - 5 * Q4
  have hδ := idle_delta_neg
  have hA2 : Real.sin (1 / 5 + t) = 0 := by
    have h : Real.sin (1 / 5 + t) *
        ((Real.cos (1 / 10) - 1) * (Real.cos (2 / 5) - 1) -
          (Real.cos (1 / 5) - 1) ^ 2) = 0 := by
      linear_combination
        ((Real.cos (2 / 5) - 1) / 20) * E1 - ((Real.cos (1 / 5) - 1) / 20) * E2
    rcases mul_eq_zero.mp h with h | h
    · exact h
    · exact absurd h (ne_of_lt hδ)
  have hA3 : Real.sin (3 / 10 + t) = 0 := by
    have h : Real.sin (3 / 10 + t) *
        ((Real.cos (1 / 10) - 1) * (Real.cos (2 / 5) - 1) -
          (Real.cos (1 / 5) - 1) ^ 2) = 0 := by
      linear_combination
        ((Real.cos (2 / 5) - 1) / 20) * E3 - ((Real.cos (1 / 5) - 1) / 20) * E4
    rcases mul_eq_zero.mp h with h | h
    · exact h
    · exact absurd h (ne_of_lt hδ)
  obtain ⟨m, hm⟩ := Real.sin_eq_zero_iff.mp hA2
  obtain ⟨n, hn⟩ := Real.sin_eq_zero_iff.mp hA3
  have hk : ((n - m : ℤ) : ℝ) * Real.pi = 1 / 10 := by
    push_cast
    linear_combination hn - hm
  have hπ : (3 : ℝ) < Real.pi := Real.pi_gt_three
  rcases lt_trichotomy (n - m) 0 with h | h | h
  · have hle : ((n - m : ℤ) : ℝ) ≤ -1 := by exact_mod_cast (by omega : (n - m : ℤ) ≤ -1)
    have h2 : ((n - m : ℤ) : ℝ) * Real.pi ≤ (-1) * Real.pi :=
      mul_le_mul_of_nonneg_right hle Real.pi_pos.le
    rw [hk] at h2
    linarith
  · rw [h] at hk
    norm_num at hk
  · have hle : (1 : ℝ) ≤ ((n - m : ℤ) : ℝ) := by exact_mod_cast (by omega : (1 : ℤ) ≤ n - m)
    have h2 : (1 : ℝ) * Real.pi ≤ ((n - m : ℤ) : ℝ) * Real.pi :=
      mul_le_mul_of_nonneg_right hle Real.pi_pos.le
    rw [hk] at h2
    linarith

/-- C9: with no audio tap connected, an idle tick draws one line through 50
evenly spaced points whose vertical offset from the center is the sum of two
sine waves at different frequencies and phases driven by wall-clock time, and
for every time > 0 the 50 offsets are not all equal (the idle waveform is
non-degenerate with zero audio frames processed). -/
theorem c9_idle_pulse (t : ℝ) (ht : 0 < t) (w h : ℝ) :
    (idlePulsePoints w h t).length = 50 ∧
    idlePulsePoints w h t =
      (List.range 50).map (fun (i : ℕ) =>
        ((i : ℝ) * (w / 49),
          h / 2 + (Real.sin (i * 0.1 + t) * 10 + Real.sin (i * 0.2 - t * 1.5) * 5))) ∧
    ∃ i : Fin 50, ∃ j : Fin 50, idleOffset t i.val ≠ idleOffset t j.val := by
  refine ⟨by simp [idlePulsePoints, idlePoints], ?_, ?_⟩
  · unfold idlePulsePoints idlePoints idleOffset
    norm_num
  · by_contra hcon
    push_neg at hcon
    exact idle_core t (hcon ⟨0, by norm_num⟩ ⟨2, by norm_num⟩)
      (hcon ⟨1, by norm_num⟩ ⟨2, by norm_num⟩)
      (hcon ⟨3, by norm_num⟩ ⟨2, by norm_num⟩)
      (hcon ⟨4, by norm_num⟩ ⟨2, by norm_num⟩)
      (hcon ⟨5, by norm_num⟩ ⟨2, by norm_num⟩)

theorem c9_idle_pulse_witness :
    (idlePulsePoints 300 300 1).length = 50 ∧
    idlePulsePoints 300 300 1 =
      (List.range 50).map (fun (i : ℕ) =>
        ((i : ℝ) * (300 / 49),
          (300 : ℝ) / 2 +
            (Real.sin (i * 0.1 + 1) * 10 + Real.sin (i * 0.2 - 1 * 1.5) * 5))) ∧
    ∃ i : Fin 50, ∃ j : Fin 50, idleOffset 1 i.val ≠ idleOffset 1 j.val :=
  c9_idle_pulse 1 one_pos 300 300

end MP3Player
